import Mathlib

/-!
Shallow embedding of `src/vs/workbench/services/history/browser/history.ts`:
the workbench navigation-history service (navigation stack, recency history,
recently-closed files, persistence). Line numbers in doc comments refer to
that file. External collaborators (editor service, storage service, glob
matcher, window service) are modelled through the narrow data they contribute:
URIs are strings, the storage value is seen through the behaviour of
`JSON.parse` on it, and the resource glob matcher is an explicit set of
excluded resource URIs.
-/

deriving instance DecidableEq for Except

/-- Models `ITextEditorSelection` (the `{ startLineNumber, startColumn }`
projection that `TextEditorState` stores, lines 43-48). -/
structure TextEditorSelection where
  startLineNumber : Nat
  startColumn : Nat
  deriving DecidableEq

/-- Models `Selection` from `vs/editor/common/core/selection`: an anchor
(`selectionStart*`) and a cursor (`position*`) position. -/
structure Selection where
  selectionStartLineNumber : Nat
  selectionStartColumn : Nat
  positionLineNumber : Nat
  positionColumn : Nat
  deriving DecidableEq

/-- Models `Selection.startLineNumber`: `Selection` extends `Range`, whose
start is the lexicographically smaller of the two endpoints, so the start
line is the minimum of the two line numbers. -/
def Selection.startLineNumber (s : Selection) : Nat :=
  min s.selectionStartLineNumber s.positionLineNumber

/-- Models `Selection.startColumn`: the column belonging to the
lexicographically smaller endpoint. -/
def Selection.startColumn (s : Selection) : Nat :=
  if s.selectionStartLineNumber < s.positionLineNumber then s.selectionStartColumn
  else if s.positionLineNumber < s.selectionStartLineNumber then s.positionColumn
  else min s.selectionStartColumn s.positionColumn

/-- Models a resolved `IEditorInput` (an `EditorInput` instance owned by the
host): a host identity, a display name (`getName()`), and the backing file
URI when the input is file-backed (`toResource(input, filter: file)`).
`IEditorInput.matches` is host-defined identity; it is modelled as equality
of the whole reference. -/
structure EditorRef where
  id : Nat
  name : String
  file : Option String
  deriving DecidableEq

/-- Models the union `IEditorInput | IResourceInput` (lines 159, 185): either
a resolved editor input or a lightweight URI-based resource descriptor. -/
inductive DocRef where
  | editor (e : EditorRef)
  | resource (uri : String)
  deriving DecidableEq

/-- True exactly on resource descriptors (the `input instanceof EditorInput`
dispatch, negated). -/
def DocRef.isResource : DocRef → Bool
  | .editor _ => false
  | .resource _ => true

/-- Models `IStackEntry` (lines 158-162). -/
structure StackEntry where
  input : DocRef
  selection : Option TextEditorSelection
  timestamp : Nat
  deriving DecidableEq

/-- Models `IRecentlyClosedFile` (lines 164-167). -/
structure RecentlyClosedFile where
  resource : String
  index : Nat
  deriving DecidableEq

/-- Models `ISerializedFileHistoryEntry` (lines 82-85). -/
structure SerializedFileHistoryEntry where
  resource : Option String
  resourceJSON : Option String
  deriving DecidableEq

/-- Models the workspace-scoped storage value under `history.entries` as seen
through `JSON.parse`: `absent` when `storageService.get` returns nothing (a
falsy `entriesRaw`), `malformed` when the stored string makes `JSON.parse`
throw, and `valid` when it parses to an array of serialized entries. -/
inductive StoredValue where
  | absent
  | malformed (raw : String)
  | valid (entries : List SerializedFileHistoryEntry)
  deriving DecidableEq

/-- Models the `SyntaxError` thrown by `JSON.parse` on malformed input. -/
inductive ParseError where
  | syntaxError (raw : String)
  deriving DecidableEq

/-- Models `TextEditorState` (lines 37-80): the editor input together with
the raw selection passed to the constructor (`_selection`, absent when the
value was not an `ISelection`). -/
structure TextEditorState where
  editorInput : EditorRef
  rawSelection : Option Selection
  deriving DecidableEq

namespace TextEditorState

/-- Models `TextEditorState.EDITOR_SELECTION_THRESHOLD` (line 39). -/
def EDITOR_SELECTION_THRESHOLD : Nat := 10

/-- Models the `selection` getter (lines 54-56): the
`{ startLineNumber, startColumn }` projection computed in the constructor
(lines 44-47), absent when no concrete selection was given. -/
def selection (s : TextEditorState) : Option TextEditorSelection :=
  s.rawSelection.map fun sel =>
    { startLineNumber := sel.startLineNumber, startColumn := sel.startColumn }

/-- Models `justifiesNewPushState` (lines 58-79). `eventSourceIsApi` models
`event && event.source === 'api'`. -/
def justifiesNewPushState (s other : TextEditorState) (eventSourceIsApi : Bool) : Bool :=
  if eventSourceIsApi then true
  else if !(s.editorInput == other.editorInput) then true
  else
    match s.rawSelection, other.rawSelection with
    | some sa, some sb =>
      let thisLineNumber := min sa.selectionStartLineNumber sa.positionLineNumber
      let otherLineNumber := min sb.selectionStartLineNumber sb.positionLineNumber
      if ((thisLineNumber : Int) - (otherLineNumber : Int)).natAbs < EDITOR_SELECTION_THRESHOLD
      then false
      else true
    | _, _ => true

end TextEditorState

/-- Models the mutable fields of `HistoryService` (lines 179-189) together
with the storage collaborator it reads (`storedHistory` is the workspace
value under `history.entries`) and the resource filter (`resourceFilter`
models `ResourceGlobMatcher` as the set of excluded resource URIs). In the
source `history` is `undefined` until `loadHistory`/`clear` first assigns it,
which happens exactly when `loaded` becomes true; here it is `[]` until then. -/
structure HistoryState where
  stack : List StackEntry
  index : Int
  lastIndex : Int
  navigatingInStack : Bool
  currentTextEditorState : Option TextEditorState
  history : List DocRef
  recentlyClosedFiles : List RecentlyClosedFile
  loaded : Bool
  storedHistory : StoredValue
  resourceFilter : List String
  deriving DecidableEq

namespace HistoryService

/-- Models `HistoryService.MAX_HISTORY_ITEMS` (line 174). -/
def MAX_HISTORY_ITEMS : Nat := 200

/-- Models `HistoryService.MAX_STACK_ITEMS` (line 175). -/
def MAX_STACK_ITEMS : Nat := 20

/-- Models `HistoryService.MAX_RECENTLY_CLOSED_EDITORS` (line 176). -/
def MAX_RECENTLY_CLOSED_EDITORS : Nat := 20

/-- Models `HistoryService.MERGE_EVENT_CHANGES_THRESHOLD` (line 177). -/
def MERGE_EVENT_CHANGES_THRESHOLD : Nat := 300

/-- Models the constructor initialisation (lines 204-210). -/
def initialState : HistoryState :=
  { stack := []
    index := -1
    lastIndex := -1
    navigatingInStack := false
    currentTextEditorState := none
    history := []
    recentlyClosedFiles := []
    loaded := false
    storedHistory := .absent
    resourceFilter := [] }

/-- Models `matchesFile` (lines 683-697): a URI against an editor input (its
backing file URI, if any) or a resource descriptor. The `FileChangesEvent`
case is not needed by any claim and is omitted. -/
def matchesFile (resource : String) (arg2 : DocRef) : Bool :=
  match arg2 with
  | .editor e =>
    match e.file with
    | some f => f == resource
    | none => false
  | .resource uri => uri == resource

/-- Models `matches` (lines 654-681; renamed because `matches` is a Lean
keyword) on document references: resolved inputs compare via host identity,
an input against a descriptor via the input's backing file URI, and
descriptors via URI string equality. -/
def matchesInput (arg1 inputB : DocRef) : Bool :=
  match arg1, inputB with
  | .editor a, .editor b => a == b
  | .editor a, .resource u => matchesFile u (.editor a)
  | .resource u, .editor b => matchesFile u (.editor b)
  | .resource ua, .resource ub => ua == ub

/-- Models `preferResourceInput` (lines 601-608): store a resource descriptor
instead of the resolved input whenever the input is file-backed. -/
def preferResourceInput (input : EditorRef) : DocRef :=
  match input.file with
  | some f => .resource f
  | none => .editor input

/-- Models `sameSelection` (lines 610-620): both absent counts as the same,
one absent does not, otherwise equality of start line numbers. -/
def sameSelection (selectionA selectionB : Option TextEditorSelection) : Bool :=
  match selectionA, selectionB with
  | none, none => true
  | none, some _ => false
  | some _, none => false
  | some a, some b => a.startLineNumber == b.startLineNumber

/-- Models `include` (lines 430-438; renamed because `include` is a Lean
keyword): resolved inputs are always included, resource descriptors only
when the glob matcher does not exclude their URI. -/
def includeInHistory (s : HistoryState) (input : DocRef) : Bool :=
  match input with
  | .editor _ => true
  | .resource uri => !(s.resourceFilter.contains uri)

/-- Models the JavaScript read `this.stack[this.index]`: `undefined` when the
index is negative or past the end. -/
def stackCurrent (s : HistoryState) : Option StackEntry :=
  if s.index < 0 then none else s.stack[s.index.toNat]?

/-- Models `setIndex` (lines 215-218): remember the previous index in
`lastIndex`, then move `index`. -/
def setIndex (s : HistoryState) (value : Int) : HistoryState :=
  { s with lastIndex := s.index, index := value }

/-- Models `navigate` (lines 359-388): opens the document of
`stack[index]` with its selection, setting `navigatingInStack` for the
duration of the asynchronous open and clearing it again on completion or
failure. It mutates neither the stack nor the cursor, so on the modelled
state it is the identity. -/
def navigate (s : HistoryState) : HistoryState := s

/-- Models the entry that `navigate` (line 360) opens. -/
def navigationTarget (s : HistoryState) : Option StackEntry :=
  stackCurrent s

/-- Models `forward` without `acrossEditors` (lines 274-287): guarded by
`stack.length > index + 1`, then `setIndex(index + 1)` and navigate. -/
def forward (s : HistoryState) : HistoryState :=
  if (s.stack.length : Int) > s.index + 1 then navigate (setIndex s (s.index + 1)) else s

/-- Models `back` without `acrossEditors` (lines 307-315, 326-329): guarded
by `index > 0`, then `setIndex(index - 1)` and navigate. -/
def back (s : HistoryState) : HistoryState :=
  if s.index > 0 then navigate (setIndex s (s.index - 1)) else s

/-- Models `last` (lines 317-324): fall back to `back()` when `lastIndex`
is unset, otherwise `setIndex(lastIndex)` and navigate. -/
def last (s : HistoryState) : HistoryState :=
  if s.lastIndex = -1 then back s else navigate (setIndex s s.lastIndex)

/-- Models the replace decision of `addOrReplaceInStack` (lines 547-562):
with a current entry, replace when forced, or when the input matches the
current entry's input and either the selections are the same or the current
entry is younger than `MERGE_EVENT_CHANGES_THRESHOLD` milliseconds. -/
def shouldReplace (s : HistoryState) (input : EditorRef)
    (selection : Option TextEditorSelection) (forceReplace : Bool) (now : Nat) : Bool :=
  match stackCurrent s with
  | none => false
  | some currentEntry =>
    if forceReplace then true
    else
      matchesInput (.editor input) currentEntry.input &&
        (sameSelection currentEntry.selection selection ||
          decide (now - currentEntry.timestamp < MERGE_EVENT_CHANGES_THRESHOLD))

/-- Models lines 567-570 of `addOrReplaceInStack`: when not at the end of the
stack, remove everything after the current index
(`stack = stack.slice(0, index + 1)`). -/
def truncateForward (s : HistoryState) : HistoryState :=
  if (s.stack.length : Int) > s.index + 1 then
    { s with stack := s.stack.take (s.index + 1).toNat }
  else s

/-- Models `Array.prototype.splice(i, 0, a)`: insert at position `i`,
clamping to the end when `i` exceeds the length. -/
def spliceInsert (l : List α) (i : Nat) (a : α) : List α :=
  l.take i ++ a :: l.drop i

/-- Models the push branch of `addOrReplaceInStack` (lines 577-589):
`setIndex(index + 1)`, splice the entry in at the new index, then if the
stack exceeds `MAX_STACK_ITEMS` shift the oldest entry out and, unless the
index is already 0, `setIndex(index - 1)`. -/
def pushEntry (s : HistoryState) (entry : StackEntry) : HistoryState :=
  let s1 := setIndex s (s.index + 1)
  let s2 := { s1 with stack := spliceInsert s1.stack s1.index.toNat entry }
  if s2.stack.length > MAX_STACK_ITEMS then
    let s3 := { s2 with stack := s2.stack.drop 1 }
    if s3.index > 0 then setIndex s3 (s3.index - 1) else s3
  else s2

/-- Models `addOrReplaceInStack` (lines 537-599): compute the replace
decision against the pre-truncation current entry, build the new entry from
the preferred input form with a fresh timestamp, truncate forward history,
then either overwrite `stack[index]` or push. The disposal subscription of
lines 593-598 is reactive and outside the modelled operations. -/
def addOrReplaceInStack (s : HistoryState) (input : EditorRef)
    (selection : Option TextEditorSelection) (forceReplace : Bool) (now : Nat) : HistoryState :=
  let replace := shouldReplace s input selection forceReplace now
  let entry : StackEntry :=
    { input := preferResourceInput input, selection := selection, timestamp := now }
  let s1 := truncateForward s
  if replace then { s1 with stack := s1.stack.set s1.index.toNat entry }
  else pushEntry s1 entry

/-- Models `add` (lines 525-529): guarded by the `navigatingInStack`
re-entrancy flag. -/
def add (s : HistoryState) (input : EditorRef) (selection : Option TextEditorSelection)
    (now : Nat) : HistoryState :=
  if s.navigatingInStack then s else addOrReplaceInStack s input selection false now

/-- Models `replace` (lines 531-535): forced replacement, same guard. -/
def replace (s : HistoryState) (input : EditorRef) (selection : Option TextEditorSelection)
    (now : Nat) : HistoryState :=
  if s.navigatingInStack then s else addOrReplaceInStack s input selection true now

/-- Models `handleTextEditorEvent` (lines 499-514): build the candidate
state; push when there is no current state or the candidate justifies a new
push state, otherwise replace; finally remember the candidate as the current
text editor state. -/
def handleTextEditorEvent (s : HistoryState) (input : EditorRef)
    (controlSelection : Option Selection) (eventSourceIsApi : Bool) (now : Nat) : HistoryState :=
  let stateCandidate : TextEditorState :=
    { editorInput := input, rawSelection := controlSelection }
  let s1 :=
    match s.currentTextEditorState with
    | none => add s input stateCandidate.selection now
    | some current =>
      if current.justifiesNewPushState stateCandidate eventSourceIsApi then
        add s input stateCandidate.selection now
      else
        replace s input stateCandidate.selection now
  { s1 with currentTextEditorState := some stateCandidate }

/-- Models `loadHistory`'s mapping of parsed entries back to inputs (lines
737-744): entries carrying a `resource` or `resourceJSON` field become
resource descriptors (`URI.revive`/`URI.parse` are the identity on the
modelled string URIs), everything else is dropped by the trailing filter. -/
def loadHistoryEntries (entries : List SerializedFileHistoryEntry) : List DocRef :=
  entries.filterMap fun entry =>
    match entry.resourceJSON, entry.resource with
    | some j, _ => some (.resource j)
    | none, some r => some (.resource r)
    | none, none => none

/-- Models `loadHistory` (lines 729-745): read the raw stored value; a falsy
value leaves the entry list empty, a malformed value makes `JSON.parse`
throw, and a parsed array is mapped through `loadHistoryEntries`. -/
def loadHistory (s : HistoryState) : Except ParseError HistoryState :=
  match s.storedHistory with
  | .absent => .ok { s with history := loadHistoryEntries [] }
  | .malformed raw => .error (.syntaxError raw)
  | .valid entries => .ok { s with history := loadHistoryEntries entries }

/-- Models `ensureHistoryLoaded` (lines 705-711): load lazily on first use.
When `loadHistory` throws, the exception propagates and the trailing
`this.loaded = true` is never reached. -/
def ensureHistoryLoaded (s : HistoryState) : Except ParseError HistoryState :=
  if s.loaded then .ok s
  else
    match loadHistory s with
    | .error e => .error e
    | .ok s1 => .ok { s1 with loaded := true }

/-- Models `getHistory` (lines 699-703): load lazily, then return a copy of
the recency list (together with the possibly-updated service state). -/
def getHistory (s : HistoryState) : Except ParseError (List DocRef × HistoryState) :=
  (ensureHistoryLoaded s).map fun s1 => (s1.history, s1)

/-- Models the serialisation step of `save` (lines 718-724): resolved inputs
map to `undefined` and are filtered out; resource descriptors map to
`{ resourceJSON: resource.toJSON() }`. -/
def saveEntries (history : List DocRef) : List SerializedFileHistoryEntry :=
  history.filterMap fun input =>
    match input with
    | .editor _ => none
    | .resource uri => some { resource := none, resourceJSON := some uri }

/-- Models `save` (lines 713-727): nothing is stored when the history was
never used (`history` is still `undefined`, which coincides with
`loaded = false`); otherwise the serialized entries are stringified and
stored, producing a value that `JSON.parse` reads back as the same array. -/
def save (s : HistoryState) : Option StoredValue :=
  if s.loaded then some (.valid (saveEntries s.history)) else none

/-- Models `clear` (lines 349-357): load lazily, then reset the stack,
cursor, recency list and closed-files list. -/
def clear (s : HistoryState) : Except ParseError HistoryState :=
  (ensureHistoryLoaded s).map fun s1 =>
    { s1 with index := -1, lastIndex := -1, stack := [], history := [],
              recentlyClosedFiles := [] }

/-- Models `removeFromHistory` (lines 459-463): load lazily, then drop every
recency entry matching the argument. -/
def removeFromHistory (s : HistoryState) (arg1 : DocRef) : Except ParseError HistoryState :=
  (ensureHistoryLoaded s).map fun s1 =>
    { s1 with history := s1.history.filter fun e => !(matchesInput arg1 e) }

/-- Models `removeFromStack` (lines 622-626): drop every stack entry matching
the argument, then unconditionally reset `index` to `stack.length - 1` and
`lastIndex` to `-1`. -/
def removeFromStack (s : HistoryState) (arg1 : DocRef) : HistoryState :=
  let st := s.stack.filter fun e => !(matchesInput arg1 e.input)
  { s with stack := st, index := (st.length : Int) - 1, lastIndex := -1 }

/-- Models `removeFromRecentlyClosedFiles` (lines 628-630). -/
def removeFromRecentlyClosedFiles (s : HistoryState) (arg1 : DocRef) : HistoryState :=
  { s with recentlyClosedFiles :=
      s.recentlyClosedFiles.filter fun e => !(matchesFile e.resource arg1) }

/-- Models `remove` (lines 444-451): remove from the recency history, the
stack and the closed-files list. `removeFromRecentlyOpened` only notifies the
host window service and does not touch the modelled state. -/
def remove (s : HistoryState) (arg1 : DocRef) : Except ParseError HistoryState :=
  (removeFromHistory s arg1).map fun s1 =>
    removeFromRecentlyClosedFiles (removeFromStack s1 arg1) arg1

/-- Models `handleEditorEventInHistory` (lines 399-428): skip when there is
no input, no displayable name, or the input is excluded; otherwise load
lazily, remove every entry matching the input, unshift the preferred input
form, and drop the last entry past `MAX_HISTORY_ITEMS`. The disposal
subscription of lines 422-427 is reactive and outside the modelled
operations. -/
def handleEditorEventInHistory (s : HistoryState) (editor : Option EditorRef) :
    Except ParseError HistoryState :=
  match editor with
  | none => .ok s
  | some input =>
    if input.name == "" || !(includeInHistory s (.editor input)) then .ok s
    else
      (ensureHistoryLoaded s).bind fun s1 =>
        (removeFromHistory s1 (.editor input)).map fun s2 =>
          let s3 := { s2 with history := preferResourceInput input :: s2.history }
          if s3.history.length > MAX_HISTORY_ITEMS then
            { s3 with history := s3.history.dropLast }
          else s3

/-- Restates, as one list transformation, the recency-list update that
`handleEditorEventInHistory` performs once its guards have passed (proved
equal in `handleEditorEventInHistory_run`): filter out entries matching the
input, cons the preferred input form, bound at `MAX_HISTORY_ITEMS`. -/
def recordActivation (h : List DocRef) (input : EditorRef) : List DocRef :=
  let h1 := h.filter fun e => !(matchesInput (.editor input) e)
  let h2 := preferResourceInput input :: h1
  if h2.length > MAX_HISTORY_ITEMS then h2.dropLast else h2

/-- States that a stored recency entry has the shape `preferResourceInput`
produces: resolved inputs in the list are never file-backed (a file-backed
input is stored as its resource descriptor instead). -/
def storedFormOk : DocRef → Bool
  | .editor e => e.file.isNone
  | .resource _ => true

/-- States the recency-list invariant of the spec: no two entries match each
other, every entry is in stored form, and the length is bounded by
`MAX_HISTORY_ITEMS`. -/
def historyOk (h : List DocRef) : Prop :=
  h.Pairwise (fun a b => matchesInput a b = false) ∧
    (∀ e ∈ h, storedFormOk e = true) ∧ h.length ≤ MAX_HISTORY_ITEMS

/-- A current entry exists exactly when the index is in bounds; then it is
the indexed element. -/
lemma stackCurrent_bounds {s : HistoryState} {cur : StackEntry}
    (h : stackCurrent s = some cur) :
    0 ≤ s.index ∧ s.index.toNat < s.stack.length ∧ s.stack[s.index.toNat]? = some cur := by
  unfold stackCurrent at h
  split at h
  · exact absurd h (by simp)
  · rename_i hlt
    refine ⟨by omega, ?_, h⟩
    have := List.getElem?_eq_some.mp h
    exact this.1

/-- A positive replace decision requires a current entry. -/
lemma shouldReplace_true_current {s : HistoryState} {input : EditorRef}
    {sel : Option TextEditorSelection} {force : Bool} {now : Nat}
    (h : shouldReplace s input sel force now = true) :
    ∃ cur, stackCurrent s = some cur := by
  unfold shouldReplace at h
  cases hc : stackCurrent s with
  | none => rw [hc] at h; exact absurd h (by simp)
  | some cur => exact ⟨cur, rfl⟩

/-- Truncation keeps the first `index + 1` entries and nothing else; the
cursor fields are untouched. -/
lemma truncateForward_eq {s : HistoryState} (h0 : 0 ≤ s.index) :
    truncateForward s = { s with stack := s.stack.take (s.index.toNat + 1) } := by
  unfold truncateForward
  split
  · rename_i hgt
    have : (s.index + 1).toNat = s.index.toNat + 1 := by omega
    rw [this]
  · rename_i hle
    have hlen : s.stack.length ≤ s.index.toNat + 1 := by omega
    rw [List.take_of_length_le hlen]

/-- Splicing at or past the end of a list appends. -/
lemma spliceInsert_eq_append {l : List α} {i : Nat} (a : α) (h : l.length ≤ i) :
    spliceInsert l i a = l ++ [a] := by
  unfold spliceInsert
  rw [List.take_of_length_le h, List.drop_eq_nil_of_le h]

/-- When the replace decision is positive, `addOrReplaceInStack` overwrites
the entry at the current index of the truncated stack and leaves the cursor
fields unchanged. -/
lemma addOrReplaceInStack_replace_eq {s : HistoryState} {input : EditorRef}
    {sel : Option TextEditorSelection} {force : Bool} {now : Nat}
    (hrep : shouldReplace s input sel force now = true) (h0 : 0 ≤ s.index) :
    addOrReplaceInStack s input sel force now =
      { s with stack := ((s.stack.take (s.index.toNat + 1)).set s.index.toNat
          ⟨preferResourceInput input, sel, now⟩) } := by
  unfold addOrReplaceInStack
  rw [hrep, truncateForward_eq h0]
  simp

/-- When the replace decision is negative and the stack stays within
capacity, `addOrReplaceInStack` truncates, appends the new entry and
advances the cursor. -/
lemma addOrReplaceInStack_push_eq {s : HistoryState} {input : EditorRef}
    {sel : Option TextEditorSelection} {force : Bool} {now : Nat}
    (hrep : shouldReplace s input sel force now = false) (h0 : 0 ≤ s.index)
    (hidx : s.index.toNat < s.stack.length)
    (hcap : s.index.toNat + 2 ≤ MAX_STACK_ITEMS) :
    addOrReplaceInStack s input sel force now =
      { s with
        stack := (s.stack.take (s.index.toNat + 1) ++
          [⟨preferResourceInput input, sel, now⟩]),
        index := s.index + 1, lastIndex := s.index } := by
  unfold addOrReplaceInStack
  rw [hrep, truncateForward_eq h0]
  simp only [Bool.false_eq_true, if_false]
  unfold pushEntry setIndex
  have htake : (s.stack.take (s.index.toNat + 1)).length = s.index.toNat + 1 := by
    rw [List.length_take]; omega
  have htoNat : (s.index + 1).toNat = s.index.toNat + 1 := by omega
  simp only [htoNat]
  rw [spliceInsert_eq_append _ (le_of_eq htake)]
  have hlen : (s.stack.take (s.index.toNat + 1) ++
      [(⟨preferResourceInput input, sel, now⟩ : StackEntry)]).length = s.index.toNat + 2 := by
    simp [htake]
  split
  · rename_i hover
    rw [hlen] at hover
    omega
  · rfl

/-- When the replace decision is negative and the push overflows capacity,
the eviction path runs and records the advanced cursor in `lastIndex`. -/
lemma addOrReplaceInStack_push_evict {s : HistoryState} {input : EditorRef}
    {sel : Option TextEditorSelection} {force : Bool} {now : Nat}
    (hrep : shouldReplace s input sel force now = false) (h0 : 0 ≤ s.index)
    (hidx : s.index.toNat < s.stack.length)
    (hcap : MAX_STACK_ITEMS < s.index.toNat + 2) :
    (addOrReplaceInStack s input sel force now).lastIndex = s.index + 1 ∧
      (addOrReplaceInStack s input sel force now).index = s.index := by
  unfold addOrReplaceInStack
  rw [hrep, truncateForward_eq h0]
  simp only [Bool.false_eq_true, if_false]
  unfold pushEntry setIndex
  have htake : (s.stack.take (s.index.toNat + 1)).length = s.index.toNat + 1 := by
    rw [List.length_take]; omega
  have htoNat : (s.index + 1).toNat = s.index.toNat + 1 := by omega
  simp only [htoNat]
  rw [spliceInsert_eq_append _ (le_of_eq htake)]
  have hlen : (s.stack.take (s.index.toNat + 1) ++
      [(⟨preferResourceInput input, sel, now⟩ : StackEntry)]).length = s.index.toNat + 2 := by
    simp [htake]
  split
  · split
    · refine ⟨rfl, ?_⟩
      show s.index + 1 - 1 = s.index
      omega
    · rename_i hpos
      omega
  · rename_i hnover
    rw [hlen] at hnover
    omega

/-- C6: for every stack state with `index > 0`, executing `back()` and then
immediately `forward()` (with no intervening add, replace or removal)
returns `index` to its original value, leaves the stack unchanged, and the
entry navigated to is the original current entry with its document and
selection. -/
theorem back_forward_restores_index (s : HistoryState)
    (h0 : 0 < s.index) (hlen : s.index < (s.stack.length : Int)) :
    (forward (back s)).index = s.index ∧ (forward (back s)).stack = s.stack ∧
      navigationTarget (forward (back s)) = navigationTarget s := by
  have hb : back s = { s with lastIndex := s.index, index := s.index - 1 } := by
    unfold back navigate setIndex
    rw [if_pos h0]
  have hf : forward (back s) =
      { s with lastIndex := s.index - 1, index := s.index - 1 + 1 } := by
    rw [hb]
    unfold forward navigate setIndex
    rw [if_pos (by dsimp; omega)]
  have hidx : s.index - 1 + 1 = s.index := by omega
  rw [hf, hidx]
  refine ⟨rfl, rfl, ?_⟩
  unfold navigationTarget stackCurrent
  rfl

/-- Concrete state for the C6 witness: a two-entry stack with the cursor on
the second entry. -/
def c6State : HistoryState :=
  { initialState with
    stack := [⟨.resource "file:///a", none, 0⟩, ⟨.resource "file:///b", some ⟨7, 1⟩, 500⟩],
    index := 1 }

/-- Witness for C6 at a concrete two-entry stack. -/
theorem back_forward_restores_index_witness :
    (forward (back c6State)).index = c6State.index ∧
      (forward (back c6State)).stack = c6State.stack ∧
      navigationTarget (forward (back c6State)) = navigationTarget c6State :=
  back_forward_restores_index c6State (by decide) (by decide)

/-- C3: pushing a non-coalescing entry while the cursor is not at the last
position first truncates all entries after `index`, then inserts the new
entry immediately after `index` and advances `index` by one (recording the
previous position in `lastIndex`). -/
theorem push_truncates_forward_and_appends (s : HistoryState) (input : EditorRef)
    (sel : Option TextEditorSelection) (now : Nat)
    (h0 : 0 ≤ s.index) (hmid : s.index + 1 < (s.stack.length : Int))
    (hlen : s.stack.length ≤ MAX_STACK_ITEMS)
    (hrep : shouldReplace s input sel false now = false) :
    addOrReplaceInStack s input sel false now =
      { s with
        stack := (s.stack.take (s.index.toNat + 1) ++
          [⟨preferResourceInput input, sel, now⟩]),
        index := s.index + 1, lastIndex := s.index } :=
  addOrReplaceInStack_push_eq hrep h0 (by omega)
    (by have h20 : MAX_STACK_ITEMS = 20 := rfl; omega)

/-- Concrete stack `[A, B, C]` with the cursor on `B`, used by the C3 and
C10 witnesses. -/
def c3State : HistoryState :=
  { initialState with
    stack := [⟨.resource "file:///a", none, 0⟩, ⟨.resource "file:///b", none, 1000⟩,
      ⟨.resource "file:///c", none, 2000⟩],
    index := 1, lastIndex := 2 }

/-- Document `D`, pushed onto `c3State` by the C3 and C10 witnesses. -/
def c3D : EditorRef := ⟨4, "d.ts", some "file:///d.ts"⟩

/-- Witness for C3: from stack `[A, B, C]` with `index = 1`, pushing the
non-coalescing entry `D` yields `[A, B, D]` with `index = 2`. -/
theorem push_truncates_forward_and_appends_witness :
    addOrReplaceInStack c3State c3D none false 5000 =
      { c3State with
        stack := (c3State.stack.take (c3State.index.toNat + 1) ++
          [⟨preferResourceInput c3D, none, 5000⟩]),
        index := c3State.index + 1, lastIndex := c3State.index } :=
  push_truncates_forward_and_appends c3State c3D none 5000 (by decide) (by decide)
    (by decide) (by decide)

/-- C10: whenever `addOrReplaceInStack` takes the replace path (coalescing
or forced) while `index` is not at the end of the stack, all entries after
`index` are removed as well: the replaced stack is the truncation to
`index + 1` entries with the new entry written at `index`, strictly shorter
than before, with the cursor fields unchanged. -/
theorem replace_discards_forward_history (s : HistoryState) (input : EditorRef)
    (sel : Option TextEditorSelection) (force : Bool) (now : Nat)
    (hrep : shouldReplace s input sel force now = true)
    (hmid : s.index + 1 < (s.stack.length : Int)) :
    (addOrReplaceInStack s input sel force now).stack =
      ((s.stack.take (s.index.toNat + 1)).set s.index.toNat
        ⟨preferResourceInput input, sel, now⟩) ∧
      (addOrReplaceInStack s input sel force now).stack.length = s.index.toNat + 1 ∧
      (addOrReplaceInStack s input sel force now).stack.length < s.stack.length ∧
      (addOrReplaceInStack s input sel force now).index = s.index ∧
      (addOrReplaceInStack s input sel force now).lastIndex = s.lastIndex := by
  obtain ⟨cur, hcur⟩ := shouldReplace_true_current hrep
  obtain ⟨h0, hidx, -⟩ := stackCurrent_bounds hcur
  rw [addOrReplaceInStack_replace_eq hrep h0]
  refine ⟨rfl, ?_, ?_, rfl, rfl⟩ <;>
    · simp only [List.length_set, List.length_take]
      omega

/-- Witness for C10: a forced replace from the middle of `[A, B, C]` drops
`C` as well. -/
theorem replace_discards_forward_history_witness :
    (addOrReplaceInStack c3State c3D none true 5000).stack =
      ((c3State.stack.take (c3State.index.toNat + 1)).set c3State.index.toNat
        ⟨preferResourceInput c3D, none, 5000⟩) ∧
      (addOrReplaceInStack c3State c3D none true 5000).stack.length =
        c3State.index.toNat + 1 ∧
      (addOrReplaceInStack c3State c3D none true 5000).stack.length <
        c3State.stack.length ∧
      (addOrReplaceInStack c3State c3D none true 5000).index = c3State.index ∧
      (addOrReplaceInStack c3State c3D none true 5000).lastIndex = c3State.lastIndex :=
  replace_discards_forward_history c3State c3D none true 5000 (by decide) (by decide)

/-- Documents used by the C1 failing run. -/
def c1DocA : EditorRef := ⟨1, "a.ts", some "file:///a.ts"⟩

/-- Second document of the C1 failing run. -/
def c1DocB : EditorRef := ⟨2, "b.ts", some "file:///b.ts"⟩

/-- Third document of the C1 failing run. -/
def c1DocC : EditorRef := ⟨3, "c.ts", some "file:///c.ts"⟩

/-- Fourth document of the C1 failing run. -/
def c1DocD : EditorRef := ⟨4, "d.ts", some "file:///d.ts"⟩

/-- The C1 failing run: from the initial state, `add A; add B; add C`
(distinct documents, slow enough not to coalesce), then `back()` (recording
`lastIndex = 2`), then `replace(D)` (which truncates the stack to two
entries but leaves `lastIndex = 2` stale), then `last()` (which jumps to the
stale `lastIndex`). -/
def c1Final : HistoryState :=
  last (replace (back (add (add (add initialState c1DocA none 0) c1DocB none 1000)
    c1DocC none 2000)) c1DocD none 3000)

/-- C1 (code bug): after the run `add A; add B; add C; back; replace D;
last` — all public operations — the stack is non-empty yet
`index = 2 = stack.length`, violating the cursor invariant
`0 <= index < stack.length`; `navigate()` would then read an undefined
entry. `replace` truncates forward history without refreshing `lastIndex`,
and `last()` consumes the stale value unguarded. -/
theorem stale_lastIndex_breaks_cursor_invariant :
    c1Final.stack ≠ [] ∧ ¬(c1Final.index < (c1Final.stack.length : Int)) ∧
      c1Final.index = 2 ∧ c1Final.stack.length = 2 := by decide

/-- With a current entry and no forced replacement, the replace decision is
exactly the coalescing condition of lines 552-561. -/
lemma shouldReplace_iff {s : HistoryState} {input : EditorRef}
    {sel : Option TextEditorSelection} {now : Nat} {cur : StackEntry}
    (hcur : stackCurrent s = some cur) :
    shouldReplace s input sel false now = true ↔
      (matchesInput (.editor input) cur.input = true ∧
        (sameSelection cur.selection sel = true ∨
          now - cur.timestamp < MERGE_EVENT_CHANGES_THRESHOLD)) := by
  unfold shouldReplace
  rw [hcur]
  simp

/-- C2: with a current entry present and `forceReplace` not set, the current
entry is replaced in place (the stack truncated to the cursor with the new
entry — carrying a refreshed timestamp — written at `index`, nothing pushed)
if and only if the incoming document matches the current entry's document
and either the two selections have equal start line numbers (both-absent
counting as the same) or the current entry's timestamp is less than
`MERGE_EVENT_CHANGES_THRESHOLD` (300ms) old. -/
theorem addOrReplaceInStack_coalesce_iff (s : HistoryState) (input : EditorRef)
    (sel : Option TextEditorSelection) (now : Nat) (cur : StackEntry)
    (hcur : stackCurrent s = some cur)
    (hlen : s.stack.length ≤ MAX_STACK_ITEMS)
    (hlast : s.lastIndex < (s.stack.length : Int)) :
    (matchesInput (.editor input) cur.input = true ∧
        (sameSelection cur.selection sel = true ∨
          now - cur.timestamp < MERGE_EVENT_CHANGES_THRESHOLD)) ↔
      addOrReplaceInStack s input sel false now =
        { s with stack := ((s.stack.take (s.index.toNat + 1)).set s.index.toNat
            ⟨preferResourceInput input, sel, now⟩) } := by
  obtain ⟨h0, hidx, -⟩ := stackCurrent_bounds hcur
  constructor
  · intro hcond
    exact addOrReplaceInStack_replace_eq ((shouldReplace_iff hcur).mpr hcond) h0
  · intro heq
    by_contra hcond
    have hrep : shouldReplace s input sel false now = false := by
      cases hsr : shouldReplace s input sel false now
      · rfl
      · exact absurd ((shouldReplace_iff hcur).mp hsr) hcond
    have h20 : MAX_STACK_ITEMS = 20 := rfl
    by_cases hcap : s.index.toNat + 2 ≤ MAX_STACK_ITEMS
    · have hpe := addOrReplaceInStack_push_eq hrep h0 hidx hcap
      rw [hpe] at heq
      have hix := congrArg HistoryState.index heq
      dsimp at hix
      omega
    · have hev := addOrReplaceInStack_push_evict hrep h0 hidx (by omega)
      have hli := congrArg HistoryState.lastIndex heq
      rw [hev.1] at hli
      dsimp at hli
      omega

/-- Current stack entry for the C2 witness: document `D` at line 100. -/
def c2Entry : StackEntry := ⟨.resource "file:///d.ts", some ⟨100, 1⟩, 0⟩

/-- One-entry stack for the C2 witness. -/
def c2State : HistoryState := { initialState with stack := [c2Entry], index := 0 }

/-- Incoming editor input for the C2 witness: the same document `D`. -/
def c2Input : EditorRef := ⟨4, "d.ts", some "file:///d.ts"⟩

/-- Witness for C2: same document, same start line (columns differ), old
timestamp — the entry is coalesced in place. -/
theorem addOrReplaceInStack_coalesce_iff_witness :
    addOrReplaceInStack c2State c2Input (some ⟨100, 5⟩) false 5000 =
      { c2State with
        stack := ((c2State.stack.take (c2State.index.toNat + 1)).set c2State.index.toNat
          ⟨preferResourceInput c2Input, some ⟨100, 5⟩, 5000⟩) } :=
  (addOrReplaceInStack_coalesce_iff c2State c2Input (some ⟨100, 5⟩) 5000 c2Entry
    (by decide) (by decide) (by decide)).mp (by decide)

/-- Reference matching nothing in the C5 state. -/
def c5Arg : DocRef := .resource "file:///absent.ts"

/-- Concrete state for C5: three stack entries with the cursor on the first
and `lastIndex` set. -/
def c5State : HistoryState :=
  { initialState with
    stack := [⟨.resource "file:///a", none, 0⟩, ⟨.resource "file:///b", none, 1000⟩,
      ⟨.resource "file:///c", none, 2000⟩],
    index := 0, lastIndex := 1, loaded := true }

/-- Checks that `c5Arg` matches nothing in `c5State`. -/
def c5NoMatch : Bool :=
  c5State.stack.all (fun e => !(matchesInput c5Arg e.input)) &&
    c5State.history.all (fun e => !(matchesInput c5Arg e)) &&
    c5State.recentlyClosedFiles.all (fun e => !(matchesFile e.resource c5Arg))

/-- C5 counterexample: removing a reference that matches no entry in the
stack, recency history or closed-files list is NOT a no-op — from
`index = 0`, `lastIndex = 1` over a three-entry stack, `remove` moves
`index` to `2` and resets `lastIndex` to `-1`, because `removeFromStack`
reindexes unconditionally. -/
theorem remove_nonpresent_changes_cursor :
    c5NoMatch = true ∧ remove c5State c5Arg ≠ Except.ok c5State ∧
      remove c5State c5Arg = Except.ok { c5State with index := 2, lastIndex := -1 } := by
  decide

/-- C5 amended: removing a reference that matches no entry never raises and
leaves the stack contents, recency history and closed-files list unchanged,
but `removeFromStack` still unconditionally resets the cursor: `index`
becomes `stack.length - 1` and `lastIndex` becomes `-1`. -/
theorem remove_nonpresent_noop_except_reindex (s : HistoryState) (arg : DocRef)
    (hload : s.loaded = true)
    (hstack : ∀ e ∈ s.stack, matchesInput arg e.input = false)
    (hhist : ∀ e ∈ s.history, matchesInput arg e = false)
    (hclosed : ∀ e ∈ s.recentlyClosedFiles, matchesFile e.resource arg = false) :
    remove s arg =
      Except.ok { s with index := (s.stack.length : Int) - 1, lastIndex := -1 } := by
  have h1 : s.history.filter (fun e => !(matchesInput arg e)) = s.history :=
    List.filter_eq_self.mpr (fun e he => by rw [hhist e he]; rfl)
  have h2 : s.stack.filter (fun e => !(matchesInput arg e.input)) = s.stack :=
    List.filter_eq_self.mpr (fun e he => by rw [hstack e he]; rfl)
  have h3 : s.recentlyClosedFiles.filter (fun e => !(matchesFile e.resource arg)) =
      s.recentlyClosedFiles :=
    List.filter_eq_self.mpr (fun e he => by rw [hclosed e he]; rfl)
  simp only [remove, removeFromHistory, ensureHistoryLoaded, hload, if_true,
    removeFromStack, removeFromRecentlyClosedFiles, Except.map, h1, h2, h3]

/-- Witness for the amended C5 at the concrete `c5State`. -/
theorem remove_nonpresent_noop_except_reindex_witness :
    remove c5State c5Arg =
      Except.ok { c5State with index := (c5State.stack.length : Int) - 1, lastIndex := -1 } :=
  remove_nonpresent_noop_except_reindex c5State c5Arg (by decide) (by decide) (by decide)
    (by decide)

/-- Round trip of the serialisation step: loading what `save` wrote yields
exactly the resource-descriptor entries, in order. -/
lemma loadEntries_saveEntries (h : List DocRef) :
    loadHistoryEntries (saveEntries h) = h.filter (fun e => e.isResource) := by
  induction h with
  | nil => rfl
  | cons x t ih =>
    cases x with
    | editor e =>
      simpa [saveEntries, loadHistoryEntries, List.filterMap_cons, DocRef.isResource,
        List.filter_cons] using ih
    | resource u =>
      simpa [saveEntries, loadHistoryEntries, List.filterMap_cons, DocRef.isResource,
        List.filter_cons] using ih

/-- C7: persisting a recency history and loading it back yields exactly its
resource-descriptor entries — hence their URIs — in the original order; in
particular a history of only resource descriptors round-trips to itself, and
any resolved-input entries present at save time are absent after the round
trip. -/
theorem history_save_load_roundtrip (s t : HistoryState)
    (hload : s.loaded = true)
    (hstored : save s = some t.storedHistory) :
    loadHistory t = Except.ok { t with history := s.history.filter (fun e => e.isResource) } ∧
      ((∀ e ∈ s.history, e.isResource = true) →
        loadHistory t = Except.ok { t with history := s.history }) := by
  have hsv : t.storedHistory = .valid (saveEntries s.history) := by
    unfold save at hstored
    rw [hload] at hstored
    simp only [if_true] at hstored
    exact (Option.some.injEq _ _).mp hstored.symm ▸ rfl
  have hrun : loadHistory t =
      Except.ok { t with history := s.history.filter (fun e => e.isResource) } := by
    unfold loadHistory
    rw [hsv]
    dsimp only
    rw [loadEntries_saveEntries]
  refine ⟨hrun, fun hall => ?_⟩
  rw [hrun, List.filter_eq_self.mpr hall]

/-- Recency history of two resource descriptors, for the C7 witness. -/
def c7Saver : HistoryState :=
  { initialState with
    history := [.resource "file:///x.ts", .resource "file:///y.ts"], loaded := true }

/-- State whose stored value is what `c7Saver` saved, for the C7 witness. -/
def c7Loader : HistoryState :=
  { initialState with storedHistory := .valid (saveEntries c7Saver.history) }

/-- Witness for C7 at a two-entry resource-only history. -/
theorem history_save_load_roundtrip_witness :
    loadHistory c7Loader =
      Except.ok { c7Loader with history := c7Saver.history.filter (fun e => e.isResource) } ∧
      ((∀ e ∈ c7Saver.history, e.isResource = true) →
        loadHistory c7Loader = Except.ok { c7Loader with history := c7Saver.history }) :=
  history_save_load_roundtrip c7Saver c7Loader (by decide) (by decide)

/-- State whose stored history value is not valid JSON, for C8. -/
def c8State : HistoryState := { initialState with storedHistory := .malformed "oops" }

/-- C8 counterexample: with a stored string that is not valid JSON, the lazy
history load does NOT fall back to the empty history — `JSON.parse` is
unguarded in `loadHistory`, so `ensureHistoryLoaded` and `getHistory`
propagate the parse error. -/
theorem malformed_history_raises :
    ensureHistoryLoaded c8State = Except.error (.syntaxError "oops") ∧
      getHistory c8State = Except.error (.syntaxError "oops") := by decide

/-- C8 amended: when the history has not been loaded yet, a malformed stored
string makes `ensureHistoryLoaded` (and hence `getHistory`) propagate the
parse error out of the lazy load; only an absent stored value is treated as
the empty history. -/
theorem loadHistory_propagates_parse_error (s : HistoryState) (hnl : s.loaded = false) :
    (∀ raw, s.storedHistory = .malformed raw →
      ensureHistoryLoaded s = Except.error (.syntaxError raw) ∧
        getHistory s = Except.error (.syntaxError raw)) ∧
      (s.storedHistory = .absent →
        ensureHistoryLoaded s = Except.ok { s with history := [], loaded := true }) := by
  constructor
  · intro raw hraw
    have he : ensureHistoryLoaded s = Except.error (.syntaxError raw) := by
      unfold ensureHistoryLoaded loadHistory
      rw [hnl, hraw]
      rfl
    refine ⟨he, ?_⟩
    unfold getHistory
    rw [he]
    rfl
  · intro habs
    unfold ensureHistoryLoaded loadHistory
    rw [hnl, habs]
    rfl

/-- Witness for the amended C8 at `c8State` and at an absent stored value. -/
theorem loadHistory_propagates_parse_error_witness :
    ensureHistoryLoaded c8State = Except.error (.syntaxError "oops") ∧
      ensureHistoryLoaded initialState =
        Except.ok { initialState with history := [], loaded := true } :=
  ⟨((loadHistory_propagates_parse_error c8State (by decide)).1 "oops" (by decide)).1,
    (loadHistory_propagates_parse_error initialState (by decide)).2 (by decide)⟩

/-- Two stored-form entries that both match the same resolved input must
match each other: matching an input by identity forces the input to be
non-file-backed, matching it by URI forces it to be file-backed, and within
one kind the matched entry is determined. -/
lemma matches_unique_core {input : EditorRef} {a b : DocRef}
    (ha : storedFormOk a = true) (hb : storedFormOk b = true)
    (hpa : matchesInput (.editor input) a = true)
    (hpb : matchesInput (.editor input) b = true) :
    matchesInput a b = true := by
  cases a with
  | editor ea =>
    cases b with
    | editor eb =>
      simp only [matchesInput, beq_iff_eq] at hpa hpb ⊢
      rw [← hpa, ← hpb]
    | resource ub =>
      have hie : input = ea := by simpa [matchesInput] using hpa
      have hfn : ea.file = none := by
        simpa [storedFormOk, Option.isNone_iff_eq_none] using ha
      rw [← hie] at hfn
      simp [matchesInput, matchesFile, hfn] at hpb
  | resource ua =>
    cases b with
    | editor eb =>
      have hie : input = eb := by simpa [matchesInput] using hpb
      have hfn : eb.file = none := by
        simpa [storedFormOk, Option.isNone_iff_eq_none] using hb
      rw [← hie] at hfn
      simp [matchesInput, matchesFile, hfn] at hpa
    | resource ub =>
      cases hf : input.file with
      | none => simp [matchesInput, matchesFile, hf] at hpa
      | some f =>
        have h1 : f = ua := by simpa [matchesInput, matchesFile, hf] using hpa
        have h2 : f = ub := by simpa [matchesInput, matchesFile, hf] using hpb
        simp [matchesInput, ← h1, ← h2]

/-- If the head of an invariant-satisfying list matches the input, nothing
in the tail does. -/
lemma no_tail_match {input : EditorRef} {x : DocRef} {t : List DocRef}
    (hx : storedFormOk x = true) (hts : ∀ e ∈ t, storedFormOk e = true)
    (hpw : ∀ e ∈ t, matchesInput x e = false)
    (hpx : matchesInput (.editor input) x = true) :
    ∀ e ∈ t, matchesInput (.editor input) e = false := by
  intro e he
  cases hpe : matchesInput (.editor input) e
  · rfl
  · exact absurd (matches_unique_core hx (hts e he) hpx hpe) (by simp [hpw e he])

/-- Under the recency invariants, a present match is unique, so the removal
filter drops exactly one entry. -/
lemma filter_length_of_present {input : EditorRef} {h : List DocRef}
    (hpw : h.Pairwise (fun a b => matchesInput a b = false))
    (hsf : ∀ e ∈ h, storedFormOk e = true)
    (hmem : ∃ e ∈ h, matchesInput (.editor input) e = true) :
    (h.filter (fun e => !(matchesInput (.editor input) e))).length + 1 = h.length := by
  induction h with
  | nil => simp at hmem
  | cons x t ih =>
    rw [List.pairwise_cons] at hpw
    cases hpx : matchesInput (.editor input) x with
    | false =>
      have hmem2 : ∃ e ∈ t, matchesInput (.editor input) e = true := by
        rcases hmem with ⟨e, he, hpe⟩
        rcases List.mem_cons.mp he with rfl | het
        · rw [hpx] at hpe; exact absurd hpe (by simp)
        · exact ⟨e, het, hpe⟩
      have hih := ih hpw.2 (fun e he => hsf e (List.mem_cons_of_mem _ he)) hmem2
      simp only [List.filter_cons, hpx, Bool.not_false, if_true, List.length_cons]
      omega
    | true =>
      have hnone := no_tail_match (hsf x (List.mem_cons_self x t))
        (fun e he => hsf e (List.mem_cons_of_mem _ he)) hpw.1 hpx
      have hid : t.filter (fun e => !(matchesInput (.editor input) e)) = t :=
        List.filter_eq_self.mpr (fun e he => by rw [hnone e he]; rfl)
      simp [List.filter_cons, hpx, hid]

/-- The preferred stored form of an input never matches an entry the input
itself did not match. -/
lemma prefer_not_match {input : EditorRef} {e : DocRef}
    (hsf : storedFormOk e = true)
    (hne : matchesInput (.editor input) e = false) :
    matchesInput (preferResourceInput input) e = false := by
  cases hf : input.file with
  | none =>
    simpa [preferResourceInput, hf] using hne
  | some f =>
    cases e with
    | editor ee =>
      have hfn : ee.file = none := by
        simpa [storedFormOk, Option.isNone_iff_eq_none] using hsf
      simp [preferResourceInput, hf, matchesInput, matchesFile, hfn]
    | resource u =>
      have : ¬(f = u) := by
        intro hfu
        simp [matchesInput, matchesFile, hf, hfu] at hne
      simp [preferResourceInput, hf, matchesInput, this]

/-- The preferred stored form is itself in stored form. -/
lemma prefer_storedForm (input : EditorRef) :
    storedFormOk (preferResourceInput input) = true := by
  cases hf : input.file <;> simp [preferResourceInput, storedFormOk, hf]

/-- Recording an activation preserves the recency invariant. -/
lemma recordActivation_historyOk {h : List DocRef} {input : EditorRef}
    (hok : historyOk h) : historyOk (recordActivation h input) := by
  obtain ⟨hpw, hsf, hlen⟩ := hok
  unfold recordActivation
  dsimp only
  have hsub : List.Sublist (h.filter (fun e => !(matchesInput (.editor input) e))) h :=
    List.filter_sublist h
  have hpw1 := hpw.sublist hsub
  have hsf1 : ∀ e ∈ h.filter (fun e => !(matchesInput (.editor input) e)),
      storedFormOk e = true := fun e he => hsf e (hsub.subset he)
  have hhead : ∀ e ∈ h.filter (fun e => !(matchesInput (.editor input) e)),
      matchesInput (preferResourceInput input) e = false := by
    intro e he
    have hne : matchesInput (.editor input) e = false := by
      have := (List.mem_filter.mp he).2
      simpa using this
    exact prefer_not_match (hsf1 e he) hne
  have hpw2 : (preferResourceInput input ::
      h.filter (fun e => !(matchesInput (.editor input) e))).Pairwise
        (fun a b => matchesInput a b = false) :=
    List.pairwise_cons.mpr ⟨hhead, hpw1⟩
  have hsf2 : ∀ e ∈ preferResourceInput input ::
      h.filter (fun e => !(matchesInput (.editor input) e)), storedFormOk e = true := by
    intro e he
    rcases List.mem_cons.mp he with rfl | het
    · exact prefer_storedForm input
    · exact hsf1 e het
  have hlen1 : (h.filter (fun e => !(matchesInput (.editor input) e))).length ≤ h.length :=
    List.length_filter_le _ _
  split
  · rename_i hover
    refine ⟨hpw2.sublist (List.dropLast_sublist _),
      fun e he => hsf2 e ((List.dropLast_sublist _).subset he), ?_⟩
    rw [List.length_dropLast]
    simp only [List.length_cons] at hover ⊢
    omega
  · rename_i hnover
    refine ⟨hpw2, hsf2, ?_⟩
    simp only [List.length_cons, gt_iff_lt, not_lt] at hnover ⊢
    omega

/-- Recording an activation of an already-present document keeps the list
length and puts the preferred form at the front. -/
lemma recordActivation_length_present {h : List DocRef} {input : EditorRef}
    (hok : historyOk h)
    (hmem : ∃ e ∈ h, matchesInput (.editor input) e = true) :
    (recordActivation h input).length = h.length ∧
      (recordActivation h input).head? = some (preferResourceInput input) := by
  obtain ⟨hpw, hsf, hlen⟩ := hok
  have hflt := filter_length_of_present hpw hsf hmem
  have h200 : MAX_HISTORY_ITEMS = 200 := rfl
  unfold recordActivation
  dsimp only
  split
  · rename_i hover
    simp only [List.length_cons] at hover
    omega
  · simp only [List.length_cons, List.head?_cons]
    exact ⟨by omega, by simp⟩

/-- Recording an activation of an absent document grows the list by at most
one entry. -/
lemma recordActivation_length_absent {h : List DocRef} {input : EditorRef}
    (hnone : ∀ e ∈ h, matchesInput (.editor input) e = false) :
    (recordActivation h input).length ≤ h.length + 1 := by
  have hid : h.filter (fun e => !(matchesInput (.editor input) e)) = h :=
    List.filter_eq_self.mpr (fun e he => by rw [hnone e he]; rfl)
  unfold recordActivation
  dsimp only
  rw [hid]
  split
  · rw [List.length_dropLast]
    simp
  · simp

/-- Once its guards have passed, `handleEditorEventInHistory` performs
exactly the `recordActivation` update on the recency list. -/
lemma handleEditorEventInHistory_run (s : HistoryState) (input : EditorRef)
    (hload : s.loaded = true) (hname : (input.name == "") = false) :
    handleEditorEventInHistory s (some input) =
      Except.ok { s with history := recordActivation s.history input } := by
  have hens : ensureHistoryLoaded s = Except.ok s := by
    simp [ensureHistoryLoaded, hload]
  have hrem : removeFromHistory s (.editor input) =
      Except.ok { s with
        history := (s.history.filter
          (fun e => !(matchesInput (.editor input) e))) } := by
    simp [removeFromHistory, hens, Except.map]
  unfold handleEditorEventInHistory
  dsimp only
  rw [hname]
  simp only [includeInHistory, Bool.not_true, Bool.or_false, Bool.false_eq_true, if_false]
  rw [hens]
  simp only [Except.bind]
  rw [hrem]
  simp only [Except.map]
  unfold recordActivation
  dsimp only
  split <;> rfl

/-- C9: after an activation recorded from an invariant-satisfying state, the
recency list still contains no two matching entries, stays in stored form
and never exceeds `MAX_HISTORY_ITEMS` (200); activating a document already
present keeps the list length and moves its preferred form to the front,
and activating a new document grows the length by at most one. -/
theorem recency_activation_invariant (s : HistoryState) (input : EditorRef)
    (hload : s.loaded = true) (hname : (input.name == "") = false)
    (hok : historyOk s.history) :
    ∃ s', handleEditorEventInHistory s (some input) = Except.ok s' ∧
      s'.history = recordActivation s.history input ∧
      historyOk s'.history ∧
      ((∃ e ∈ s.history, matchesInput (.editor input) e = true) →
        s'.history.length = s.history.length ∧
          s'.history.head? = some (preferResourceInput input)) ∧
      ((∀ e ∈ s.history, matchesInput (.editor input) e = false) →
        s'.history.length ≤ s.history.length + 1) :=
  ⟨{ s with history := recordActivation s.history input },
    handleEditorEventInHistory_run s input hload hname, rfl,
    recordActivation_historyOk hok,
    fun hmem => recordActivation_length_present hok hmem,
    fun hnone => recordActivation_length_absent hnone⟩

/-- One-entry recency history for the C9 witness. -/
def c9State : HistoryState :=
  { initialState with history := [.resource "file:///x.ts"], loaded := true }

/-- Newly activated document for the C9 witness. -/
def c9Input : EditorRef := ⟨7, "y.ts", some "file:///y.ts"⟩

/-- Witness for C9 at a one-entry history and a new document. -/
theorem recency_activation_invariant_witness :
    ∃ s', handleEditorEventInHistory c9State (some c9Input) = Except.ok s' ∧
      s'.history = recordActivation c9State.history c9Input ∧
      historyOk s'.history ∧
      ((∃ e ∈ c9State.history, matchesInput (.editor c9Input) e = true) →
        s'.history.length = c9State.history.length ∧
          s'.history.head? = some (preferResourceInput c9Input)) ∧
      ((∀ e ∈ c9State.history, matchesInput (.editor c9Input) e = false) →
        s'.history.length ≤ c9State.history.length + 1) :=
  recency_activation_invariant c9State c9Input (by decide) (by decide)
    (by refine ⟨?_, ?_, ?_⟩ <;> decide)

/-- Document for the C4 runs. -/
def c4D : EditorRef := ⟨4, "d.ts", some "file:///d.ts"⟩

/-- First selection of the C4 runs: line 100. -/
def c4SelA : Selection := ⟨100, 1, 100, 1⟩

/-- Second selection of the C4 counterexample: line 130. -/
def c4SelB : Selection := ⟨130, 1, 130, 1⟩

/-- State after the first C4 selection-change event (document `D` at line
100, time 0). -/
def c4AfterFirst : HistoryState :=
  handleTextEditorEvent initialState c4D (some c4SelA) false 0

/-- State after the second C4 selection-change event (document `D` at line
130, time 100ms). -/
def c4AfterSecond : HistoryState :=
  handleTextEditorEvent c4AfterFirst c4D (some c4SelB) false 100

/-- C4 counterexample: two successive selection-change events on the same
document, both with concrete selections and neither API-flagged, at start
lines 100 then 130 — a 30-line jump, well over the 10-line threshold, so the
claim predicts 2 stack entries. But the second event arrives 100ms after the
first, inside the 300ms merge window of `addOrReplaceInStack`, so the push
is coalesced and only 1 entry remains. -/
theorem far_jump_within_merge_window_coalesces :
    TextEditorState.justifiesNewPushState ⟨c4D, some c4SelA⟩ ⟨c4D, some c4SelB⟩ false = true ∧
      c4AfterFirst.stack.length = 1 ∧ c4AfterSecond.stack.length = 1 := by decide

/-- C4 amended: for two successive selection-change events on the same
document, each with a concrete selection and neither API-flagged — the state
holding the first event's snapshot and its stack entry at the end of the
stack — if the relevant start lines differ by less than 10 the top entry is
replaced and the entry count is unchanged, and if they differ by 10 or more
AND the current entry's timestamp is at least 300ms old, a new entry is
added and the count grows by one (within the 300ms window the code coalesces
instead). -/
theorem selection_threshold_classifies_push_or_replace (s : HistoryState)
    (input : EditorRef) (sa sb : Selection) (cur : StackEntry) (t2 : Nat)
    (hnav : s.navigatingInStack = false)
    (hcts : s.currentTextEditorState = some ⟨input, some sa⟩)
    (hcur : stackCurrent s = some cur)
    (_hmatch : matchesInput (.editor input) cur.input = true)
    (hcursel : cur.selection = some ⟨Selection.startLineNumber sa, Selection.startColumn sa⟩)
    (hend : s.index = (s.stack.length : Int) - 1)
    (hcap : s.stack.length < MAX_STACK_ITEMS) :
    (((min sa.selectionStartLineNumber sa.positionLineNumber : Int) -
        (min sb.selectionStartLineNumber sb.positionLineNumber : Int)).natAbs <
          TextEditorState.EDITOR_SELECTION_THRESHOLD →
      (handleTextEditorEvent s input (some sb) false t2).stack.length = s.stack.length) ∧
      (TextEditorState.EDITOR_SELECTION_THRESHOLD ≤
          ((min sa.selectionStartLineNumber sa.positionLineNumber : Int) -
            (min sb.selectionStartLineNumber sb.positionLineNumber : Int)).natAbs →
        MERGE_EVENT_CHANGES_THRESHOLD ≤ t2 - cur.timestamp →
        (handleTextEditorEvent s input (some sb) false t2).stack.length =
          s.stack.length + 1) := by
  obtain ⟨h0, hidx, -⟩ := stackCurrent_bounds hcur
  constructor
  · intro hnear
    have hjust : TextEditorState.justifiesNewPushState ⟨input, some sa⟩
        ⟨input, some sb⟩ false = false := by
      simp [TextEditorState.justifiesNewPushState, hnear]
    have hforce : shouldReplace s input
        ((⟨input, some sb⟩ : TextEditorState).selection) true t2 = true := by
      unfold shouldReplace
      rw [hcur]
      rfl
    have heq := addOrReplaceInStack_replace_eq hforce h0
    unfold handleTextEditorEvent
    rw [hcts]
    dsimp only
    rw [hjust]
    simp only [Bool.false_eq_true, if_false]
    unfold replace
    rw [hnav]
    simp only [Bool.false_eq_true, if_false]
    rw [heq]
    simp only [List.length_set, List.length_take]
    omega
  · intro hfar hslow
    have h10 : TextEditorState.EDITOR_SELECTION_THRESHOLD = 10 := rfl
    have h300 : MERGE_EVENT_CHANGES_THRESHOLD = 300 := rfl
    have h20 : MAX_STACK_ITEMS = 20 := rfl
    have hnotnear : ¬(((min sa.selectionStartLineNumber sa.positionLineNumber : Int) -
        (min sb.selectionStartLineNumber sb.positionLineNumber : Int)).natAbs <
          TextEditorState.EDITOR_SELECTION_THRESHOLD) := by omega
    have hjust : TextEditorState.justifiesNewPushState ⟨input, some sa⟩
        ⟨input, some sb⟩ false = true := by
      simp [TextEditorState.justifiesNewPushState, hnotnear]
    have hrep : shouldReplace s input
        ((⟨input, some sb⟩ : TextEditorState).selection) false t2 = false := by
      rw [Bool.eq_false_iff]
      intro htrue
      obtain ⟨hm, hrest⟩ := (shouldReplace_iff hcur).mp htrue
      rcases hrest with hsame | hfast
      · have hcsel : (⟨input, some sb⟩ : TextEditorState).selection =
            some ⟨Selection.startLineNumber sb, Selection.startColumn sb⟩ := by
          simp [TextEditorState.selection]
        rw [hcursel, hcsel] at hsame
        simp only [sameSelection, beq_iff_eq] at hsame
        unfold Selection.startLineNumber at hsame
        omega
      · omega
    have hpe := addOrReplaceInStack_push_eq hrep h0 hidx (by omega)
    unfold handleTextEditorEvent
    rw [hcts]
    dsimp only
    rw [hjust]
    simp only [if_true]
    unfold add
    rw [hnav]
    simp only [Bool.false_eq_true, if_false]
    rw [hpe]
    simp only [List.length_append, List.length_take, List.length_cons, List.length_nil]
    omega

/-- Current stack entry for the C4 witness: document `D` at line 100,
recorded at time 0. -/
def c4WCur : StackEntry := ⟨.resource "file:///d.ts", some ⟨100, 1⟩, 0⟩

/-- State for the C4 witness: the first event's snapshot is current and its
entry tops the one-entry stack. -/
def c4WState : HistoryState :=
  { initialState with
    stack := [c4WCur], index := 0,
    currentTextEditorState := some ⟨c4D, some c4SelA⟩ }

/-- Witness for the amended C4 at a concrete one-entry state. -/
theorem selection_threshold_classifies_push_or_replace_witness :
    (((min c4SelA.selectionStartLineNumber c4SelA.positionLineNumber : Int) -
        (min c4SelB.selectionStartLineNumber c4SelB.positionLineNumber : Int)).natAbs <
          TextEditorState.EDITOR_SELECTION_THRESHOLD →
      (handleTextEditorEvent c4WState c4D (some c4SelB) false 400).stack.length =
        c4WState.stack.length) ∧
      (TextEditorState.EDITOR_SELECTION_THRESHOLD ≤
          ((min c4SelA.selectionStartLineNumber c4SelA.positionLineNumber : Int) -
            (min c4SelB.selectionStartLineNumber c4SelB.positionLineNumber : Int)).natAbs →
        MERGE_EVENT_CHANGES_THRESHOLD ≤ 400 - c4WCur.timestamp →
        (handleTextEditorEvent c4WState c4D (some c4SelB) false 400).stack.length =
          c4WState.stack.length + 1) :=
  selection_threshold_classifies_push_or_replace c4WState c4D c4SelA c4SelB c4WCur 400
    (by decide) (by decide) (by decide) (by decide) (by decide) (by decide) (by decide)

end HistoryService
